import Mathlib

/-!
Verification of the quetrex-base issue-lifecycle orchestration against its
specification.

The repository implements the orchestration as workflow documents with
embedded shell commands (the `close-issue` workflow), a Linear-API poller
(`scripts/linear-poller.ts`) and a WezTerm worktree helper (`.quetrex.lua`).
This file gives a shallow embedding of that control flow and of the affected
git state, and proves or refutes the specification's claims about it.
-/

namespace CloseIssue

/-- The `MutationProgress` markers tracked by the close-issue workflow
(Section 4): `COMMITTED`, `PUSHED`, `PR_CREATED`, `MERGED`. -/
structure MutationProgress where
  committed : Bool
  pushed : Bool
  pr_created : Bool
  merged : Bool
deriving DecidableEq, Repr

/-- The git/filesystem state the workflow mutates: the issue's worktree
directory, its local branch, its remote branch, whether an open PR exists
for the branch, and whether the shared base checkout sits on the trunk
branch. -/
structure WorldState where
  worktreeExists : Bool
  localBranchExists : Bool
  remoteBranchExists : Bool
  prOpen : Bool
  onMain : Bool
deriving DecidableEq, Repr

/-- Result of one cleanup sub-step: the state afterwards and whether the
shell command exited zero. -/
structure StepRes where
  state : WorldState
  ok : Bool
deriving DecidableEq, Repr

/-- `git push origin --delete "$BRANCH" 2>/dev/null || true` — the remote
delete used in the `MERGED = true` branch of Remote Cleanup; errors are
suppressed, so it succeeds even when the remote branch is already gone. -/
def gitDeleteRemoteSuppressed (s : WorldState) : StepRes :=
  ⟨{ s with remoteBranchExists := false }, true⟩

/-- `git push origin --delete "$BRANCH"` — the remote delete used in the
`PUSHED = true but PR_CREATED = false` branch of Remote Cleanup; it has no
error suppression, so it exits nonzero when the remote branch is absent. -/
def gitDeleteRemotePlain (s : WorldState) : StepRes :=
  ⟨{ s with remoteBranchExists := false }, s.remoteBranchExists⟩

/-- `git checkout main && git pull --prune` — first Local Cleanup step;
checking out the trunk branch succeeds also when already on it. -/
def gitCheckoutMainPull (s : WorldState) : StepRes :=
  ⟨{ s with onMain := true }, true⟩

/-- `git worktree remove "$WORKTREE_PATH" --force 2>/dev/null || true` —
suppressed, so it tolerates the worktree being already removed. -/
def gitWorktreeRemoveForce (s : WorldState) : StepRes :=
  ⟨{ s with worktreeExists := false }, true⟩

/-- `git worktree prune` — prunes stale metadata; a no-op on this state. -/
def gitWorktreePrune (s : WorldState) : StepRes := ⟨s, true⟩

/-- `git branch -D "$BRANCH" 2>/dev/null || true` — suppressed, so it
tolerates the local branch being already gone. -/
def gitBranchDeleteForce (s : WorldState) : StepRes :=
  ⟨{ s with localBranchExists := false }, true⟩

/-- Result of the `release` routine (Section 5, Mandatory Cleanup): final
state, whether the PR reference was reported to the caller for manual
resolution, and the exit status of each executed cleanup sub-step in
order. -/
structure ReleaseResult where
  state : WorldState
  prReported : Bool
  subOks : List Bool
deriving DecidableEq, Repr

/-- Section 5, Mandatory Cleanup. Remote Cleanup applies the first matching
condition on the progress markers; Local Cleanup always runs afterwards.
In the `PR_CREATED = true but MERGED = false` case the PR is left open, the
remote branch is kept, and the PR reference is reported. -/
def release (p : MutationProgress) (s : WorldState) : ReleaseResult :=
  let remote : WorldState × List Bool :=
    if p.merged then
      let r := gitDeleteRemoteSuppressed s
      (r.state, [r.ok])
    else if p.pr_created then
      (s, [])
    else if p.pushed then
      let r := gitDeleteRemotePlain s
      (r.state, [r.ok])
    else
      (s, [])
  let r2 := gitCheckoutMainPull remote.1
  let r3 := gitWorktreeRemoveForce r2.state
  let r4 := gitWorktreePrune r3.state
  let r5 := gitBranchDeleteForce r4.state
  { state := r5.state
    prReported := p.pr_created && !p.merged
    subOks := remote.2 ++ [r2.ok, r3.ok, r4.ok, r5.ok] }

/-- Oracles for the steps executed by one run: the three Phase 1 quality
checks and the four Phase 2 mutation steps. -/
structure StepOutcomes where
  typeOk : Bool
  lintOk : Bool
  testsOk : Bool
  commitOk : Bool
  pushOk : Bool
  prOk : Bool
  mergeOk : Bool
deriving DecidableEq, Repr

/-- Events of one run: the four mutation steps of Section 4 as they are
attempted, and the Section 5 cleanup entry. -/
inductive Ev
  | commit
  | push
  | pr
  | merge
  | cleanup
deriving DecidableEq, Repr

/-- Section 4, Mutation Phase: the steps 4a-4d in fixed order, each
attempted only after the previous one succeeded; the first failing step
ends the phase (the instructions skip to Section 5). Returns the progress
markers, the mutated state and the list of attempted steps. -/
def mutationPhase (o : StepOutcomes) (s : WorldState) :
    MutationProgress × WorldState × List Ev :=
  if !o.commitOk then (⟨false, false, false, false⟩, s, [.commit])
  else if !o.pushOk then (⟨true, false, false, false⟩, s, [.commit, .push])
  else
    let s2 := { s with remoteBranchExists := true }
    if !o.prOk then (⟨true, true, false, false⟩, s2, [.commit, .push, .pr])
    else
      let s3 := { s2 with prOpen := true }
      if !o.mergeOk then
        (⟨true, true, true, false⟩, s3, [.commit, .push, .pr, .merge])
      else
        -- `gh pr merge --merge --delete-branch`: PR merged, remote branch deleted
        (⟨true, true, true, true⟩,
         { s3 with prOpen := false, remoteBranchExists := false },
         [.commit, .push, .pr, .merge])

/-- The outcome a run reports (Section 7, mapped onto the spec's exit
contract): `open_pr_awaiting_merge` is the source's "merge failed, PR is
open at PR_URL" report and the spec's partial_open_pr; `orphan_branch` is
the source's "PR creation failed" report and the spec's
partial_orphan_branch; the two not-pushed reports are the source's
commit-failed / push-failed rows. -/
inductive FinalReport
  | precondition_error
  | quality_failed
  | done
  | open_pr_awaiting_merge
  | orphan_branch
  | push_failed
  | commit_failed
deriving DecidableEq, Repr

/-- Section 7: the progress markers determine the report. -/
def reportOf (p : MutationProgress) : FinalReport :=
  if p.merged then .done
  else if p.pr_created then .open_pr_awaiting_merge
  else if p.pushed then .orphan_branch
  else if p.committed then .push_failed
  else .commit_failed

/-- Result of one run of the close-issue workflow. -/
structure RunResult where
  state : WorldState
  progress : MutationProgress
  releaseInvoked : Bool
  prReported : Bool
  trace : List Ev
  report : FinalReport
deriving DecidableEq, Repr

/-- The close-issue workflow (the two-phase document): Section 1 guard
(refuse on main/master), Section 3 quality gates (fail = STOP, nothing to
clean), Section 4 mutation phase, Section 5 mandatory cleanup, Section 7
report. `branch` is the current branch captured in Section 1. -/
def closeIssue (branch : String) (o : StepOutcomes) (s : WorldState) :
    RunResult :=
  if branch = "main" ∨ branch = "master" then
    { state := s, progress := ⟨false, false, false, false⟩
      releaseInvoked := false, prReported := false, trace := []
      report := .precondition_error }
  else if !(o.typeOk && o.lintOk && o.testsOk) then
    { state := s, progress := ⟨false, false, false, false⟩
      releaseInvoked := false, prReported := false, trace := []
      report := .quality_failed }
  else
    let m := mutationPhase o s
    let r := release m.1 m.2.1
    { state := r.state, progress := m.1
      releaseInvoked := true, prReported := r.prReported
      trace := m.2.2 ++ [.cleanup]
      report := reportOf m.1 }

end CloseIssue

namespace QualityGate

/-- Result of a Quality Gate attempt: pass, retry (budget not exhausted),
or exhausted (budget spent). -/
inductive GateResult
  | passed
  | retry
  | exhausted
deriving DecidableEq, Repr

/-- The retry budget of the Quality Gate. -/
def max_attempts : Nat := 5

/-- Outcome of driving the Quality Gate loop to completion: the final
persisted `attempt_count`, the gate's result, whether the stage status was
set to `failed`, how many human notifications were sent, how many times the
verification worker was invoked, and whether the workspace was deleted. -/
structure GateRun where
  attempt_count : Nat
  result : GateResult
  statusFailed : Bool
  notified : Nat
  workerInvocations : Nat
  workspaceDeleted : Bool
deriving DecidableEq, Repr

/-- Modelled from the spec: the Quality Gate bounded-retry loop of §4.3 is
not implemented in the repository sources — the workflow documents only
reference its persisted retry counts (the QA Failure Analysis prompt reads
`.issue/stage-state.json` for "retry counts and failure history") — so the
loop is modelled from the spec's words: on each attempt invoke the
verification worker; on pass return `passed`; on failure increment
`attempt_count`; below `max_attempts` return `retry` and re-enter, at
`max_attempts` return `exhausted`, set the stage status to `failed`, send
one human notification, halt without deleting the workspace and invoke the
worker no further. `checks k` tells whether the composite check passes on
the attempt with persisted count `k`; `k` is the current `attempt_count`
(persisting across restarts); `inv` accumulates worker invocations. -/
def gateLoop (checks : Nat → Bool) (k : Nat) (inv : Nat) : GateRun :=
  if checks k then
    { attempt_count := k, result := .passed, statusFailed := false
      notified := 0, workerInvocations := inv + 1, workspaceDeleted := false }
  else if k + 1 < max_attempts then
    gateLoop checks (k + 1) (inv + 1)
  else
    { attempt_count := k + 1, result := .exhausted, statusFailed := true
      notified := 1, workerInvocations := inv + 1, workspaceDeleted := false }
termination_by max_attempts - k
decreasing_by omega

end QualityGate

namespace LinearPoller

/-- A character kept by the slug regex `[^a-z0-9]+`: a lowercase ASCII
letter or a digit. -/
def isSlugChar (c : Char) : Bool :=
  (decide ('a' ≤ c) && decide (c ≤ 'z')) || (decide ('0' ≤ c) && decide (c ≤ '9'))

/-- Worker for `dashRuns`: the flag records whether the previous character
belonged to a run of non-slug characters whose hyphen is already
emitted. -/
def dashRunsAux : Bool → List Char → List Char
  | _, [] => []
  | inRun, c :: cs =>
    if isSlugChar c then c :: dashRunsAux false cs
    else if inRun then dashRunsAux true cs
    else '-' :: dashRunsAux true cs

/-- `.replace(/[^a-z0-9]+/g, '-')`: every maximal run of characters outside
`[a-z0-9]` becomes a single hyphen. -/
def dashRuns (l : List Char) : List Char := dashRunsAux false l

/-- Drop one leading hyphen, if present. -/
def dropLeadDash : List Char → List Char
  | [] => []
  | c :: cs => if c = '-' then cs else c :: cs

/-- `.replace(/^-|-$/g, '')`: after `dashRuns` at most one hyphen can sit
at each end, and the regex removes one leading and one trailing hyphen. -/
def stripEdges (l : List Char) : List Char :=
  (dropLeadDash (dropLeadDash l).reverse).reverse

/-- The slug computed by `generateBranchName`: title lowercased, runs of
other characters replaced by a hyphen, edges stripped, first 40 kept. -/
def slugChars (title : List Char) : List Char :=
  (stripEdges (dashRuns (title.map Char.toLower))).take 40

/-- `generateBranchName` from `scripts/linear-poller.ts`. -/
def generateBranchName (identifier title : String) : String :=
  "issue/" ++ String.mk (identifier.data.map Char.toLower) ++ "-" ++
    String.mk (slugChars title.data)

/-- `generateTabName` from `scripts/linear-poller.ts`: same slug pipeline
truncated to 30 characters. -/
def generateTabName (title : String) : String :=
  String.mk ((stripEdges (dashRuns (title.data.map Char.toLower))).take 30)

/-- A Linear issue as the poller sees it. -/
structure PIssue where
  id : String
  identifier : String
  title : String
deriving DecidableEq, Repr

/-- The git state the poller mutates: existing branches and worktree
paths. -/
structure GitW where
  branches : List String
  paths : List String
deriving DecidableEq, Repr

/-- The poller's state: the processed-issues map persisted on disk (as the
list of its issue-id keys) plus the git state. -/
structure PollState where
  processed : List String
  git : GitW
deriving DecidableEq, Repr

/-- `triggerWorkflow`: runs `git worktree add ../worktrees/${tabName} -b
${branchName}` (execSync throws when the branch or the path already
exists, aborting the workflow with no creation); the later steps (.issue
files, wezterm spawn, claude launch) may still fail, decided by the
`laterOk` oracle on the issue id. Returns the new git state, overall
success, and the branch-creation events, each tagged with the issue id it
was created for and the branch name created. -/
def triggerWorkflow (laterOk : String → Bool) (i : PIssue) (g : GitW) :
    GitW × Bool × List (String × String) :=
  let b := generateBranchName i.identifier i.title
  let p := "../worktrees/" ++ generateTabName i.title
  if b ∈ g.branches ∨ p ∈ g.paths then (g, false, [])
  else (⟨b :: g.branches, p :: g.paths⟩, laterOk i.id, [(i.id, b)])

/-- Observable outcome of one poll cycle: final state, branch-creation
events (issue id, branch name), the issue ids for which `triggerWorkflow`
was invoked, and the ids whose workflow succeeded. -/
structure PollOut where
  final : PollState
  events : List (String × String)
  invoked : List String
  succeeded : List String

/-- One `poll` cycle over the fetched issue list: an issue whose id is in
the processed map is skipped without invoking the workflow; otherwise the
workflow runs and, on success, the id is added to the map and the map is
saved to disk before the next issue is handled (the updated state threads
into the recursive call); a caught error leaves the map unchanged. -/
def pollIssues (laterOk : String → Bool) :
    List PIssue → PollState → PollOut
  | [], st => ⟨st, [], [], []⟩
  | i :: rest, st =>
    if i.id ∈ st.processed then
      pollIssues laterOk rest st
    else
      let t := triggerWorkflow laterOk i st.git
      let st' : PollState :=
        if t.2.1 then ⟨i.id :: st.processed, t.1⟩ else ⟨st.processed, t.1⟩
      let out := pollIssues laterOk rest st'
      ⟨out.final, t.2.2 ++ out.events, i.id :: out.invoked,
        (if t.2.1 then [i.id] else []) ++ out.succeeded⟩

/-- Repeated poll cycles (the 5-minute interval), each reloading the
persisted map: the final state and all branch-creation events. -/
def pollCycles (laterOk : String → Bool) :
    List (List PIssue) → PollState → PollState × List (String × String)
  | [], st => (st, [])
  | c :: cs, st =>
    let out := pollIssues laterOk c st
    let r := pollCycles laterOk cs out.final
    (r.1, out.events ++ r.2)

end LinearPoller

namespace Acquire

/-- Git state for worktree acquisition: existing local branches, existing
worktree paths, and branches currently checked out in some worktree. -/
structure RepoState where
  branches : List String
  paths : List String
  checkedOut : List String
deriving DecidableEq, Repr

/-- `git worktree add PATH -b BRANCH`: fails when the branch or the path
already exists; on success creates both and checks the branch out. -/
def worktreeAddNewBranch (s : RepoState) (path branch : String) :
    RepoState × Bool :=
  if branch ∈ s.branches ∨ path ∈ s.paths then (s, false)
  else
    (⟨branch :: s.branches, path :: s.paths, branch :: s.checkedOut⟩, true)

/-- `git worktree add PATH BRANCH` (existing branch): fails when the
branch does not exist, the path already exists, or the branch is already
checked out in another worktree; on success attaches a new worktree to the
existing branch. -/
def worktreeAddExisting (s : RepoState) (path branch : String) :
    RepoState × Bool :=
  if branch ∉ s.branches ∨ path ∈ s.paths ∨ branch ∈ s.checkedOut then
    (s, false)
  else
    ({ s with paths := path :: s.paths, checkedOut := branch :: s.checkedOut },
     true)

/-- What an acquisition attempt did. -/
inductive AcquireOutcome
  | createdNew
  | attachedExisting
  | failed
deriving DecidableEq, Repr

/-- `create_worktree_command` from `.quetrex.lua`: the worktree path is
`../worktrees/$BRANCH`; first try `git worktree add "$WORKTREE_PATH" -b
"$BRANCH" 2>/dev/null`, and if that fails fall back to `git worktree add
"$WORKTREE_PATH" "$BRANCH"`; if both fail the command errors. -/
def create_worktree_command (s : RepoState) (branch : String) :
    RepoState × AcquireOutcome :=
  let path := "../worktrees/" ++ branch
  let r1 := worktreeAddNewBranch s path branch
  if r1.2 then (r1.1, .createdNew)
  else
    let r2 := worktreeAddExisting s path branch
    if r2.2 then (r2.1, .attachedExisting) else (s, .failed)

end Acquire

section Theorems

open CloseIssue

/-- C1: for every run of the close-issue workflow, once any Phase 2
mutation step (commit, push, create PR, merge) has begun — i.e. the trunk
guard and the Phase 1 quality checks passed — the Workspace Manager's
release (Section 5 Mandatory Cleanup) is invoked before the routine
returns, regardless of which mutation step failed: a failure in any of
steps 4a-4d transfers control to cleanup rather than terminating the
run. -/
theorem c1_mutation_begun_implies_release (branch : String)
    (o : StepOutcomes) (s : WorldState)
    (hb : ¬(branch = "main" ∨ branch = "master"))
    (h1 : o.typeOk = true) (h2 : o.lintOk = true) (h3 : o.testsOk = true) :
    (closeIssue branch o s).releaseInvoked = true ∧
    (closeIssue branch o s).trace.getLast? = some Ev.cleanup := by
  simp [closeIssue, hb, h1, h2, h3]

/-- C1 witness: a run on a feature branch whose push step fails still
invokes release, with cleanup the last event. -/
theorem c1_witness :
    (closeIssue "issue/qx-7-foo" ⟨true, true, true, true, false, true, true⟩
      ⟨true, true, false, false, false⟩).releaseInvoked = true ∧
    (closeIssue "issue/qx-7-foo" ⟨true, true, true, true, false, true, true⟩
      ⟨true, true, false, false, false⟩).trace.getLast? = some Ev.cleanup :=
  c1_mutation_begun_implies_release "issue/qx-7-foo" _ _ (by decide) rfl rfl rfl

/-- C6: a run that starts on the trunk branch aborts as a hard
precondition failure before any mutation with no cleanup, and a run whose
Phase 1 quality checks fail stops with nothing mutated, the workspace
preserved and no cleanup obligation. -/
theorem c6_phase1_failures_stop_without_cleanup (branch : String)
    (o : StepOutcomes) (s : WorldState) :
    ((branch = "main" ∨ branch = "master") →
      closeIssue branch o s =
        ⟨s, ⟨false, false, false, false⟩, false, false, [],
          .precondition_error⟩) ∧
    (¬(branch = "main" ∨ branch = "master") →
      (o.typeOk = false ∨ o.lintOk = false ∨ o.testsOk = false) →
      closeIssue branch o s =
        ⟨s, ⟨false, false, false, false⟩, false, false, [],
          .quality_failed⟩) := by
  constructor
  · intro h
    simp [closeIssue, h]
  · intro h hq
    rcases hq with hq | hq | hq <;> simp [closeIssue, h, hq]

/-- C6 witness: a run from `main` aborts as a precondition failure, and a
run on a feature branch with a failing type-check stops with the state
untouched and no cleanup. -/
theorem c6_witness :
    closeIssue "main" ⟨true, true, true, true, true, true, true⟩
      ⟨true, true, false, false, false⟩ =
      ⟨⟨true, true, false, false, false⟩, ⟨false, false, false, false⟩,
        false, false, [], .precondition_error⟩ ∧
    closeIssue "issue/qx-7-foo" ⟨false, true, true, true, true, true, true⟩
      ⟨true, true, false, false, false⟩ =
      ⟨⟨true, true, false, false, false⟩, ⟨false, false, false, false⟩,
        false, false, [], .quality_failed⟩ :=
  ⟨(c6_phase1_failures_stop_without_cleanup "main" _ _).1 (Or.inl rfl),
   (c6_phase1_failures_stop_without_cleanup "issue/qx-7-foo" _ _).2
     (by decide) (Or.inl rfl)⟩

/-- C7: in every run that enters the terminal mutation phase, the steps
execute in the fixed order commit, push, create PR, merge — the attempted
steps are a prefix of that order, push is attempted only after commit
succeeded, PR creation only after push succeeded, merge only after PR
creation succeeded — and cleanup is attempted exactly once, after the
mutation phase has returned, never from within a partially-failed step. -/
theorem c7_mutation_order (branch : String) (o : StepOutcomes)
    (s : WorldState)
    (hb : ¬(branch = "main" ∨ branch = "master"))
    (h1 : o.typeOk = true) (h2 : o.lintOk = true) (h3 : o.testsOk = true) :
    (∃ n, (closeIssue branch o s).trace =
      ([Ev.commit, Ev.push, Ev.pr, Ev.merge].take n) ++ [Ev.cleanup]) ∧
    (Ev.push ∈ (closeIssue branch o s).trace → o.commitOk = true) ∧
    (Ev.pr ∈ (closeIssue branch o s).trace →
      o.pushOk = true ∧ o.commitOk = true) ∧
    (Ev.merge ∈ (closeIssue branch o s).trace →
      o.prOk = true ∧ o.pushOk = true ∧ o.commitOk = true) ∧
    Ev.cleanup ∉ (mutationPhase o s).2.2 := by
  simp only [closeIssue, if_neg hb, h1, h2, h3]
  obtain ⟨t, l, ts, c, p, pr, m⟩ := o
  cases c <;> cases p <;> cases pr <;> cases m <;>
    simp [mutationPhase] <;>
    first
      | exact ⟨1, by decide⟩
      | exact ⟨2, by decide⟩
      | exact ⟨3, by decide⟩
      | exact ⟨4, by decide⟩

/-- C7 witness: in a run whose PR-creation step fails, the attempted steps
are commit, push, PR in order followed by the single cleanup entry. -/
theorem c7_witness :
    (∃ n, (closeIssue "issue/qx-7-foo"
        ⟨true, true, true, true, true, false, true⟩
        ⟨true, true, false, false, false⟩).trace =
      ([Ev.commit, Ev.push, Ev.pr, Ev.merge].take n) ++ [Ev.cleanup]) ∧
    (Ev.push ∈ (closeIssue "issue/qx-7-foo"
        ⟨true, true, true, true, true, false, true⟩
        ⟨true, true, false, false, false⟩).trace →
      (⟨true, true, true, true, true, false, true⟩ : StepOutcomes).commitOk
        = true) :=
  let h := c7_mutation_order "issue/qx-7-foo"
    ⟨true, true, true, true, true, false, true⟩
    ⟨true, true, false, false, false⟩ (by decide) rfl rfl rfl
  ⟨h.1, h.2.1⟩

/-- C3: if at cleanup time `pr_created = true` and `merged = false`, then
release leaves the pull request open and does not delete the remote branch
— it still exists afterwards — while the local worktree and local branch
are removed, and the PR reference is reported to the caller. -/
theorem c3_orphan_pr_safety (p : MutationProgress) (s : WorldState)
    (hpr : p.pr_created = true) (hm : p.merged = false)
    (hr : s.remoteBranchExists = true) :
    (release p s).state.remoteBranchExists = true ∧
    (release p s).state.prOpen = s.prOpen ∧
    (release p s).state.worktreeExists = false ∧
    (release p s).state.localBranchExists = false ∧
    (release p s).prReported = true := by
  simp [release, gitCheckoutMainPull, gitWorktreeRemoveForce,
    gitWorktreePrune, gitBranchDeleteForce, hpr, hm, hr]

/-- C3 witness: release after a successful PR creation but failed merge
keeps the remote branch and the open PR, removes the worktree and local
branch, and reports the PR. -/
theorem c3_witness :
    (release ⟨true, true, true, false⟩
      ⟨true, true, true, true, false⟩).state.remoteBranchExists = true ∧
    (release ⟨true, true, true, false⟩
      ⟨true, true, true, true, false⟩).state.prOpen =
      (⟨true, true, true, true, false⟩ : WorldState).prOpen ∧
    (release ⟨true, true, true, false⟩
      ⟨true, true, true, true, false⟩).state.worktreeExists = false ∧
    (release ⟨true, true, true, false⟩
      ⟨true, true, true, true, false⟩).state.localBranchExists = false ∧
    (release ⟨true, true, true, false⟩
      ⟨true, true, true, true, false⟩).prReported = true :=
  c3_orphan_pr_safety ⟨true, true, true, false⟩
    ⟨true, true, true, true, false⟩ rfl rfl rfl

/-- C4: if the mutation phase reaches `pushed = true` but PR creation
fails, then release deletes the orphaned remote branch, removes the local
worktree and local branch, and the run's final report is the
orphan-branch outcome (the spec's `partial_orphan_branch`). -/
theorem c4_pushed_without_pr (branch : String) (o : StepOutcomes)
    (s : WorldState)
    (hb : ¬(branch = "main" ∨ branch = "master"))
    (h1 : o.typeOk = true) (h2 : o.lintOk = true) (h3 : o.testsOk = true)
    (hc : o.commitOk = true) (hp : o.pushOk = true) (hpr : o.prOk = false) :
    (closeIssue branch o s).progress.pushed = true ∧
    (closeIssue branch o s).progress.pr_created = false ∧
    (closeIssue branch o s).state.remoteBranchExists = false ∧
    (closeIssue branch o s).state.worktreeExists = false ∧
    (closeIssue branch o s).state.localBranchExists = false ∧
    (closeIssue branch o s).report = .orphan_branch := by
  simp [closeIssue, mutationPhase, release, reportOf, hb, h1, h2, h3,
    hc, hp, hpr, gitDeleteRemotePlain, gitCheckoutMainPull,
    gitWorktreeRemoveForce, gitWorktreePrune, gitBranchDeleteForce]

/-- C4 witness: the spec's example scenario — push succeeds, PR creation
fails — ends with the remote branch deleted, local worktree and branch
removed, and the orphan-branch report. -/
theorem c4_witness :
    (closeIssue "issue/qx-7-foo" ⟨true, true, true, true, true, false, true⟩
      ⟨true, true, false, false, false⟩).progress.pushed = true ∧
    (closeIssue "issue/qx-7-foo" ⟨true, true, true, true, true, false, true⟩
      ⟨true, true, false, false, false⟩).progress.pr_created = false ∧
    (closeIssue "issue/qx-7-foo" ⟨true, true, true, true, true, false, true⟩
      ⟨true, true, false, false, false⟩).state.remoteBranchExists = false ∧
    (closeIssue "issue/qx-7-foo" ⟨true, true, true, true, true, false, true⟩
      ⟨true, true, false, false, false⟩).state.worktreeExists = false ∧
    (closeIssue "issue/qx-7-foo" ⟨true, true, true, true, true, false, true⟩
      ⟨true, true, false, false, false⟩).state.localBranchExists = false ∧
    (closeIssue "issue/qx-7-foo" ⟨true, true, true, true, true, false, true⟩
      ⟨true, true, false, false, false⟩).report = .orphan_branch :=
  c4_pushed_without_pr "issue/qx-7-foo" _ _ (by decide) rfl rfl rfl rfl rfl
    rfl

/-- C2 counterexample: not every cleanup sub-step tolerates the resource
already being absent. In the `PUSHED = true, PR_CREATED = false` case the
orphaned-remote-branch delete (`git push origin --delete "$BRANCH"`) has no
error suppression, so on a second release call — the remote branch now
gone — that sub-step exits nonzero. -/
theorem c2_counterexample :
    (release ⟨true, true, false, false⟩
      (release ⟨true, true, false, false⟩
        ⟨true, true, true, false, false⟩).state).subOks =
      [false, true, true, true, true] := by decide

/-- C2 amended: for every `MutationProgress` combination, running release
twice from the same starting state produces the same final
filesystem/branch state as running it once; and in every case except the
orphaned-remote-branch delete (`pushed = true`, `pr_created = false`,
`merged = false`, whose delete is not error-suppressed) every cleanup
sub-step of both runs tolerates the resource already being absent and
exits zero. -/
theorem c2_release_idempotent_amended (p : MutationProgress)
    (s : WorldState) :
    (release p (release p s).state).state = (release p s).state ∧
    (¬(p.pushed = true ∧ p.pr_created = false ∧ p.merged = false) →
      (release p s).subOks.all id = true ∧
      (release p (release p s).state).subOks.all id = true) := by
  obtain ⟨a, b, c, d⟩ := p
  obtain ⟨e, f, g, h, i⟩ := s
  revert a b c d e f g h i
  decide

/-- C2 amended witness: with a merged PR, release is idempotent on the
state and every sub-step of both calls exits zero. -/
theorem c2_amended_witness :
    (release ⟨true, true, true, true⟩
      (release ⟨true, true, true, true⟩
        ⟨true, true, true, false, false⟩).state).state =
      (release ⟨true, true, true, true⟩
        ⟨true, true, true, false, false⟩).state ∧
    (release ⟨true, true, true, true⟩
      ⟨true, true, true, false, false⟩).subOks.all id = true :=
  ⟨(c2_release_idempotent_amended ⟨true, true, true, true⟩
      ⟨true, true, true, false, false⟩).1,
   ((c2_release_idempotent_amended ⟨true, true, true, true⟩
      ⟨true, true, true, false, false⟩).2 (by decide)).1⟩

open QualityGate in
/-- Helper: the gate loop started at any `attempt_count` below the budget
keeps the count within the budget, reports exhaustion exactly at the
budget with `status = failed`, one notification and the workspace kept,
and invokes the worker at most once per remaining attempt. -/
theorem gateLoop_spec (checks : Nat → Bool) :
    ∀ fuel k inv, max_attempts - k = fuel → k < max_attempts →
    (gateLoop checks k inv).attempt_count ≤ max_attempts ∧
    ((gateLoop checks k inv).result = .exhausted →
      (gateLoop checks k inv).attempt_count = max_attempts ∧
      (gateLoop checks k inv).statusFailed = true ∧
      (gateLoop checks k inv).notified = 1 ∧
      (gateLoop checks k inv).workspaceDeleted = false) ∧
    (gateLoop checks k inv).workerInvocations ≤ inv + (max_attempts - k) := by
  intro fuel
  induction fuel with
  | zero => intro k inv hf hk; omega
  | succ n ih =>
    intro k inv hf hk
    rw [gateLoop]
    by_cases hc : checks k = true
    · simp only [hc, if_true]
      refine ⟨by omega, ?_, by omega⟩
      intro hres
      simp at hres
    · simp only [Bool.not_eq_true] at hc
      simp only [hc, Bool.false_eq_true, if_false]
      by_cases hlt : k + 1 < max_attempts
      · simp only [hlt, if_true]
        obtain ⟨ha, hb, hcw⟩ := ih (k + 1) (inv + 1) (by omega) hlt
        exact ⟨ha, hb, by omega⟩
      · simp only [hlt, if_false]
        have hkm : k + 1 = max_attempts := by omega
        exact ⟨by omega, fun _ => ⟨hkm, trivial, trivial, trivial⟩, by omega⟩

open QualityGate in
/-- C5: the Quality Gate is a bounded-retry loop with budget
`max_attempts = 5`: `attempt_count` never exceeds the budget, and when the
gate exhausts it the result is `exhausted` with the count exactly at the
budget, the stage status set to `failed`, one human notification sent, the
workspace preserved, and no further worker invocation beyond the remaining
budget — the loop halts. -/
theorem c5_quality_gate_budget (checks : Nat → Bool) (k inv : Nat)
    (hk : k < max_attempts) :
    (gateLoop checks k inv).attempt_count ≤ max_attempts ∧
    ((gateLoop checks k inv).result = .exhausted →
      (gateLoop checks k inv).attempt_count = max_attempts ∧
      (gateLoop checks k inv).statusFailed = true ∧
      (gateLoop checks k inv).notified = 1 ∧
      (gateLoop checks k inv).workspaceDeleted = false) ∧
    (gateLoop checks k inv).workerInvocations ≤ inv + (max_attempts - k) :=
  gateLoop_spec checks (max_attempts - k) k inv rfl hk

open QualityGate in
/-- C5 witness: with every check failing, the gate started fresh exhausts
the budget of 5 with status failed, one notification, the workspace kept,
and exactly five worker invocations. -/
theorem c5_witness :
    (gateLoop (fun _ => false) 0 0).attempt_count ≤ max_attempts ∧
    ((gateLoop (fun _ => false) 0 0).result = .exhausted →
      (gateLoop (fun _ => false) 0 0).attempt_count = max_attempts ∧
      (gateLoop (fun _ => false) 0 0).statusFailed = true ∧
      (gateLoop (fun _ => false) 0 0).notified = 1 ∧
      (gateLoop (fun _ => false) 0 0).workspaceDeleted = false) ∧
    (gateLoop (fun _ => false) 0 0).workerInvocations ≤
      0 + (max_attempts - 0) :=
  c5_quality_gate_budget (fun _ => false) 0 0 (by decide)

open Acquire in
/-- C8 counterexample: acquisition is not idempotent per issue id. When
the workspace (worktree + branch) for the issue already exists, both legs
of `.quetrex.lua`'s `create_worktree_command` fail — `git worktree add -b`
because the branch exists, the fallback because the path exists and the
branch is checked out — so the command errors instead of returning the
existing workspace; and the bare `git worktree add ... -b` used by
create-issue and the linear poller fails outright. No `WorkspaceConflict`
distinct from ordinary failure exists anywhere. -/
theorem c8_counterexample :
    create_worktree_command
      ⟨["issue/qx-1-a"], ["../worktrees/issue/qx-1-a"], ["issue/qx-1-a"]⟩
      "issue/qx-1-a" =
      (⟨["issue/qx-1-a"], ["../worktrees/issue/qx-1-a"], ["issue/qx-1-a"]⟩,
        .failed) ∧
    worktreeAddNewBranch
      ⟨["issue/qx-1-a"], ["../worktrees/issue/qx-1-a"], ["issue/qx-1-a"]⟩
      "../worktrees/issue/qx-1-a" "issue/qx-1-a" =
      (⟨["issue/qx-1-a"], ["../worktrees/issue/qx-1-a"], ["issue/qx-1-a"]⟩,
        false) := by decide

open Acquire in
/-- C8 amended: workspace acquisition never creates a duplicate worktree
or branch — `git worktree add -b` succeeds only when both the branch and
the path are fresh; the `.quetrex.lua` fallback attaches a worktree to an
already existing branch only when the path is fresh and the branch is not
checked out elsewhere; and when the branch and its worktree path both
already exist the command fails with the repository state unchanged,
rather than returning the existing workspace (no `WorkspaceConflict`
error is distinguished). -/
theorem c8_acquire_no_duplicate_amended (s : RepoState) (branch : String) :
    ((create_worktree_command s branch).2 = .createdNew →
      branch ∉ s.branches ∧ ("../worktrees/" ++ branch) ∉ s.paths) ∧
    ((create_worktree_command s branch).2 = .attachedExisting →
      branch ∈ s.branches ∧ ("../worktrees/" ++ branch) ∉ s.paths ∧
      branch ∉ s.checkedOut) ∧
    (branch ∈ s.branches ∧ ("../worktrees/" ++ branch) ∈ s.paths →
      create_worktree_command s branch = (s, .failed)) := by
  simp only [create_worktree_command, worktreeAddNewBranch,
    worktreeAddExisting]
  by_cases h1 : branch ∈ s.branches ∨ ("../worktrees/" ++ branch) ∈ s.paths
  · simp only [h1, if_true]
    by_cases h2 : branch ∉ s.branches ∨
        ("../worktrees/" ++ branch) ∈ s.paths ∨ branch ∈ s.checkedOut
    · simp only [h2, if_true]
      refine ⟨by simp, by simp, fun hex => ?_⟩
      simp
    · simp only [h2, if_false]
      push_neg at h2
      refine ⟨by simp, fun _ => ⟨h2.1, h2.2.1, h2.2.2⟩, fun hex => ?_⟩
      exact absurd hex.2 h2.2.1
  · simp only [h1, if_false]
    push_neg at h1
    exact ⟨fun _ => h1, by simp, fun hex => absurd hex.1 h1.1⟩

open Acquire in
/-- C8 amended witness: on a fresh repository the command creates the
workspace (so branch and path were fresh), and when branch and path both
already exist it fails with the state unchanged. -/
theorem c8_amended_witness :
    ("issue/qx-1-a" ∉ (⟨[], [], []⟩ : RepoState).branches ∧
      ("../worktrees/" ++ "issue/qx-1-a") ∉
        (⟨[], [], []⟩ : RepoState).paths) ∧
    create_worktree_command
      ⟨["issue/qx-1-a"], ["../worktrees/issue/qx-1-a"], ["issue/qx-1-a"]⟩
      "issue/qx-1-a" =
      (⟨["issue/qx-1-a"], ["../worktrees/issue/qx-1-a"], ["issue/qx-1-a"]⟩,
        .failed) :=
  ⟨(c8_acquire_no_duplicate_amended ⟨[], [], []⟩ "issue/qx-1-a").1
      (by decide),
   (c8_acquire_no_duplicate_amended
      ⟨["issue/qx-1-a"], ["../worktrees/issue/qx-1-a"], ["issue/qx-1-a"]⟩
      "issue/qx-1-a").2.2 (by decide)⟩

open LinearPoller in
/-- Helper: every character emitted by the run-collapsing replacement is a
slug character or a hyphen. -/
theorem mem_dashRunsAux (l : List Char) :
    ∀ (b : Bool) (c : Char), c ∈ dashRunsAux b l →
      isSlugChar c = true ∨ c = '-' := by
  induction l with
  | nil => intro b c h; simp [dashRunsAux] at h
  | cons a l ih =>
    intro b c h
    simp only [dashRunsAux] at h
    by_cases ha : isSlugChar a = true
    · rw [if_pos ha] at h
      rcases List.mem_cons.mp h with rfl | h
      · exact Or.inl ha
      · exact ih false c h
    · rw [if_neg ha] at h
      cases b with
      | true => exact ih true c (by simpa using h)
      | false =>
        rcases List.mem_cons.mp (by simpa using h) with rfl | h
        · exact Or.inr rfl
        · exact ih true c h

open LinearPoller in
/-- Helper: dropping a leading hyphen keeps a sublist. -/
theorem dropLeadDash_subset (l : List Char) : dropLeadDash l ⊆ l := by
  cases l with
  | nil => simp [dropLeadDash]
  | cons c cs =>
    simp only [dropLeadDash]
    split
    · exact List.subset_cons_self c cs
    · exact fun x hx => hx

open LinearPoller in
/-- Helper: stripping edge hyphens keeps a subset of the characters. -/
theorem stripEdges_subset (l : List Char) : stripEdges l ⊆ l := by
  intro x hx
  simp only [stripEdges, List.mem_reverse] at hx
  have h1 := dropLeadDash_subset _ hx
  rw [List.mem_reverse] at h1
  exact dropLeadDash_subset _ h1

open LinearPoller in
/-- C9: for every Linear issue identifier and title,
`generateBranchName` returns `issue/` followed by the lowercased
identifier, a hyphen, and the slug; the slug contains only lowercase
letters, digits and hyphens, and is at most 40 characters long. -/
theorem c9_generateBranchName_shape (ident title : String) :
    (generateBranchName ident title).data =
      "issue/".data ++ ident.data.map Char.toLower ++
        '-' :: slugChars title.data ∧
    (slugChars title.data).length ≤ 40 ∧
    ∀ c ∈ slugChars title.data, isSlugChar c = true ∨ c = '-' := by
  refine ⟨?_, ?_, ?_⟩
  · simp [generateBranchName, String.data_append]
  · exact List.length_take_le 40 _
  · intro c hc
    have h1 := List.take_subset 40 _ hc
    have h2 := stripEdges_subset _ h1
    exact mem_dashRunsAux _ false c h2

open LinearPoller in
/-- C9 witness: at a concrete identifier and title the branch name
decomposes as claimed and the slug characters are slug characters. -/
theorem c9_witness :
    (generateBranchName "QTX-7" "Fix the Login Button!").data =
      "issue/".data ++ "QTX-7".data.map Char.toLower ++
        '-' :: slugChars "Fix the Login Button!".data ∧
    (isSlugChar 'f' = true ∨ 'f' = '-') :=
  ⟨(c9_generateBranchName_shape "QTX-7" "Fix the Login Button!").1,
   (c9_generateBranchName_shape "QTX-7" "Fix the Login Button!").2.2 'f'
     (by decide)⟩

open LinearPoller in
/-- Helper: invariants of one poll cycle — the persisted map only grows,
branches only grow, every branch-creation event created a branch fresh at
the cycle's start that is in the final branch list, the created branch
names are distinct, issues already in the map at the time they are reached
are never invoked, every succeeded issue id is in the final persisted map,
and every creation event stems from an issue of the cycle, pairing that
issue's id with the branch name generated from its identifier and
title. -/
theorem pollIssues_inv (laterOk : String → Bool) (issues : List PIssue) :
    ∀ st : PollState,
      st.processed ⊆ (pollIssues laterOk issues st).final.processed ∧
      st.git.branches ⊆ (pollIssues laterOk issues st).final.git.branches ∧
      (∀ ev ∈ (pollIssues laterOk issues st).events,
        ev.2 ∉ st.git.branches ∧
          ev.2 ∈ (pollIssues laterOk issues st).final.git.branches) ∧
      ((pollIssues laterOk issues st).events.map Prod.snd).Nodup ∧
      (∀ x ∈ st.processed, x ∉ (pollIssues laterOk issues st).invoked) ∧
      (∀ x ∈ (pollIssues laterOk issues st).succeeded,
        x ∈ (pollIssues laterOk issues st).final.processed) ∧
      (∀ ev ∈ (pollIssues laterOk issues st).events, ∃ i, i ∈ issues ∧
        ev = (i.id, generateBranchName i.identifier i.title)) := by
  induction issues with
  | nil =>
    intro st
    refine ⟨fun x h => h, fun x h => h, ?_, ?_, ?_, ?_, ?_⟩ <;>
      simp [pollIssues]
  | cons i rest ih =>
    intro st
    by_cases hmem : i.id ∈ st.processed
    · simp only [pollIssues, if_pos hmem]
      obtain ⟨h1, h2, h3, h4, h5, h6, h7⟩ := ih st
      refine ⟨h1, h2, h3, h4, h5, h6, ?_⟩
      intro ev hev
      obtain ⟨j, hj, hevj⟩ := h7 ev hev
      exact ⟨j, List.mem_cons_of_mem _ hj, hevj⟩
    · by_cases hgit : generateBranchName i.identifier i.title ∈
          st.git.branches ∨
          ("../worktrees/" ++ generateTabName i.title) ∈ st.git.paths
      · simp only [pollIssues, if_neg hmem, triggerWorkflow, if_pos hgit]
        simp only [Bool.false_eq_true, if_false, List.nil_append]
        obtain ⟨h1, h2, h3, h4, h5, h6, h7⟩ := ih ⟨st.processed, st.git⟩
        refine ⟨h1, h2, h3, h4, ?_, h6, ?_⟩
        · intro x hx
          simp only [List.mem_cons, not_or]
          exact ⟨fun he => hmem (he ▸ hx), h5 x hx⟩
        · intro ev hev
          obtain ⟨j, hj, hevj⟩ := h7 ev hev
          exact ⟨j, List.mem_cons_of_mem _ hj, hevj⟩
      · by_cases hl : laterOk i.id = true
        · simp only [pollIssues, if_neg hmem, triggerWorkflow, if_neg hgit,
            hl, if_true, List.singleton_append]
          obtain ⟨h1, h2, h3, h4, h5, h6, h7⟩ :=
            ih ⟨i.id :: st.processed,
              ⟨generateBranchName i.identifier i.title :: st.git.branches,
               ("../worktrees/" ++ generateTabName i.title) ::
                 st.git.paths⟩⟩
          push_neg at hgit
          refine ⟨?_, ?_, ?_, ?_, ?_, ?_, ?_⟩
          · exact fun x hx => h1 (List.mem_cons_of_mem _ hx)
          · exact fun x hx => h2 (List.mem_cons_of_mem _ hx)
          · intro ev hev
            rcases List.mem_cons.mp hev with rfl | hev
            · exact ⟨hgit.1, h2 (List.mem_cons_self _ _)⟩
            · obtain ⟨hfresh, hfin⟩ := h3 ev hev
              exact ⟨fun hc => hfresh (List.mem_cons_of_mem _ hc), hfin⟩
          · simp only [List.map_cons]
            refine List.Nodup.cons ?_ h4
            intro hc
            rw [List.mem_map] at hc
            obtain ⟨ev, hev, hev2⟩ := hc
            exact (h3 ev hev).1 (hev2 ▸ List.mem_cons_self _ _)
          · intro x hx
            simp only [List.mem_cons, not_or]
            exact ⟨fun he => hmem (he ▸ hx),
              h5 x (List.mem_cons_of_mem _ hx)⟩
          · intro x hx
            rcases List.mem_cons.mp hx with rfl | hx
            · exact h1 (List.mem_cons_self _ _)
            · exact h6 x hx
          · intro ev hev
            rcases List.mem_cons.mp hev with rfl | hev
            · exact ⟨i, List.mem_cons_self _ _, rfl⟩
            · obtain ⟨j, hj, hevj⟩ := h7 ev hev
              exact ⟨j, List.mem_cons_of_mem _ hj, hevj⟩
        · simp only [pollIssues, if_neg hmem, triggerWorkflow, if_neg hgit,
            hl, Bool.false_eq_true, if_false, List.nil_append,
            List.singleton_append]
          obtain ⟨h1, h2, h3, h4, h5, h6, h7⟩ :=
            ih ⟨st.processed,
              ⟨generateBranchName i.identifier i.title :: st.git.branches,
               ("../worktrees/" ++ generateTabName i.title) ::
                 st.git.paths⟩⟩
          push_neg at hgit
          refine ⟨h1, ?_, ?_, ?_, ?_, h6, ?_⟩
          · exact fun x hx => h2 (List.mem_cons_of_mem _ hx)
          · intro ev hev
            rcases List.mem_cons.mp hev with rfl | hev
            · exact ⟨hgit.1, h2 (List.mem_cons_self _ _)⟩
            · obtain ⟨hfresh, hfin⟩ := h3 ev hev
              exact ⟨fun hc => hfresh (List.mem_cons_of_mem _ hc), hfin⟩
          · simp only [List.map_cons]
            refine List.Nodup.cons ?_ h4
            intro hc
            rw [List.mem_map] at hc
            obtain ⟨ev, hev, hev2⟩ := hc
            exact (h3 ev hev).1 (hev2 ▸ List.mem_cons_self _ _)
          · intro x hx
            simp only [List.mem_cons, not_or]
            exact ⟨fun he => hmem (he ▸ hx), h5 x hx⟩
          · intro ev hev
            rcases List.mem_cons.mp hev with rfl | hev
            · exact ⟨i, List.mem_cons_self _ _, rfl⟩
            · obtain ⟨j, hj, hevj⟩ := h7 ev hev
              exact ⟨j, List.mem_cons_of_mem _ hj, hevj⟩

open LinearPoller in
/-- Helper: across repeated poll cycles the branch list only grows, every
creation event created a fresh branch that survives into the final branch
list, the created branch names over all cycles are pairwise distinct, and
every creation event stems from an issue of one of the cycles. -/
theorem pollCycles_inv (laterOk : String → Bool)
    (cycles : List (List PIssue)) :
    ∀ st : PollState,
      st.git.branches ⊆ (pollCycles laterOk cycles st).1.git.branches ∧
      (∀ ev ∈ (pollCycles laterOk cycles st).2,
        ev.2 ∉ st.git.branches ∧
          ev.2 ∈ (pollCycles laterOk cycles st).1.git.branches) ∧
      ((pollCycles laterOk cycles st).2.map Prod.snd).Nodup ∧
      (∀ ev ∈ (pollCycles laterOk cycles st).2, ∃ c, c ∈ cycles ∧
        ∃ i, i ∈ c ∧
          ev = (i.id, generateBranchName i.identifier i.title)) := by
  induction cycles with
  | nil =>
    intro st
    refine ⟨fun x h => h, ?_, ?_, ?_⟩ <;> simp [pollCycles]
  | cons c cs ih =>
    intro st
    simp only [pollCycles]
    obtain ⟨p1, p2, p3, p4, p5, p6, p7⟩ := pollIssues_inv laterOk c st
    obtain ⟨q1, q2, q3, q4⟩ := ih (pollIssues laterOk c st).final
    refine ⟨fun x hx => q1 (p2 hx), ?_, ?_, ?_⟩
    · intro ev hev
      rcases List.mem_append.mp hev with hev | hev
      · obtain ⟨hf, hfin⟩ := p3 ev hev
        exact ⟨hf, q1 hfin⟩
      · obtain ⟨hf, hfin⟩ := q2 ev hev
        exact ⟨fun hc => hf (p2 hc), hfin⟩
    · rw [List.map_append]
      refine List.Nodup.append p4 q3 ?_
      intro b hb1 hb2
      rw [List.mem_map] at hb1 hb2
      obtain ⟨ev1, hev1, he1⟩ := hb1
      obtain ⟨ev2, hev2, he2⟩ := hb2
      exact (q2 ev2 hev2).1 (he2 ▸ he1 ▸ (p3 ev1 hev1).2)
    · intro ev hev
      rcases List.mem_append.mp hev with hev | hev
      · obtain ⟨j, hj, hevj⟩ := p7 ev hev
        exact ⟨c, List.mem_cons_self _ _, j, hj, hevj⟩
      · obtain ⟨c2, hc2, j, hj, hevj⟩ := q4 ev hev
        exact ⟨c2, List.mem_cons_of_mem _ hc2, j, hj, hevj⟩

/-- Helper: a list of pairs whose second components are pairwise distinct
and whose first component determines the second has pairwise distinct
first components. -/
theorem nodup_fst_of_nodup_snd (l : List (String × String))
    (hsnd : (l.map Prod.snd).Nodup)
    (hkey : ∀ x ∈ l, ∀ y ∈ l, x.1 = y.1 → x.2 = y.2) :
    (l.map Prod.fst).Nodup := by
  induction l with
  | nil => simp
  | cons e l ih =>
    simp only [List.map_cons, List.nodup_cons] at hsnd ⊢
    refine ⟨?_, ih hsnd.2 fun x hx y hy hxy =>
      hkey x (List.mem_cons_of_mem _ hx) y (List.mem_cons_of_mem _ hy) hxy⟩
    intro hmemf
    rw [List.mem_map] at hmemf
    obtain ⟨y, hy, hy1⟩ := hmemf
    have h2 : y.2 = e.2 :=
      hkey y (List.mem_cons_of_mem _ hy) e (List.mem_cons_self _ _) hy1
    exact hsnd.1 (h2 ▸ List.mem_map_of_mem Prod.snd hy)

open LinearPoller in
/-- C10 counterexample: repeated poll cycles can create a second worktree
and branch for the same issue id. An issue whose workflow fails after the
worktree is created (so its id is never persisted to the processed map)
and which is refetched in a later cycle with a changed title yields a
different branch name: two cycles over issue id "a" produce two
branch-creation events for that id. -/
theorem c10_counterexample :
    (pollCycles (fun _ => false)
      [[⟨"a", "QX-1", "T1"⟩], [⟨"a", "QX-1", "T2"⟩]]
      ⟨[], ⟨[], []⟩⟩).2 =
      [("a", "issue/qx-1-t1"), ("a", "issue/qx-1-t2")] := by decide

open LinearPoller in
/-- C10 amended: within a poll cycle an issue whose id is already a key of
the processed-issues map is skipped without invoking the workflow; every
issue whose workflow succeeds ends up persisted in the map; over
arbitrarily many poll cycles the created branch names are pairwise
distinct, so no second worktree or branch with the same branch name is
ever created; and provided every issue keeps the same identifier and
title whenever it reappears across the cycles, no second worktree or
branch is ever created for the same issue id. -/
theorem c10_poller_at_most_once_amended :
    (∀ (laterOk : String → Bool) (issues : List PIssue) (st : PollState)
      (x : String), x ∈ st.processed →
        x ∉ (pollIssues laterOk issues st).invoked) ∧
    (∀ (laterOk : String → Bool) (issues : List PIssue) (st : PollState)
      (x : String), x ∈ (pollIssues laterOk issues st).succeeded →
        x ∈ (pollIssues laterOk issues st).final.processed) ∧
    (∀ (laterOk : String → Bool) (cycles : List (List PIssue))
      (st : PollState),
        ((pollCycles laterOk cycles st).2.map Prod.snd).Nodup) ∧
    (∀ (laterOk : String → Bool) (cycles : List (List PIssue))
      (st : PollState),
        (∀ c₁ ∈ cycles, ∀ i ∈ c₁, ∀ c₂ ∈ cycles, ∀ j ∈ c₂,
          i.id = j.id → i.identifier = j.identifier ∧ i.title = j.title) →
        ((pollCycles laterOk cycles st).2.map Prod.fst).Nodup) := by
  refine ⟨?_, ?_, ?_, ?_⟩
  · exact fun lo issues st x h =>
      (pollIssues_inv lo issues st).2.2.2.2.1 x h
  · exact fun lo issues st x h =>
      (pollIssues_inv lo issues st).2.2.2.2.2.1 x h
  · exact fun lo cycles st => (pollCycles_inv lo cycles st).2.2.1
  · intro lo cycles st hstable
    refine nodup_fst_of_nodup_snd _ ((pollCycles_inv lo cycles st).2.2.1)
      ?_
    intro x hx y hy hxy
    obtain ⟨c1, hc1, i, hi, hxeq⟩ :=
      (pollCycles_inv lo cycles st).2.2.2 x hx
    obtain ⟨c2, hc2, j, hj, hyeq⟩ :=
      (pollCycles_inv lo cycles st).2.2.2 y hy
    have hid : i.id = j.id := by
      rw [hxeq, hyeq] at hxy
      exact hxy
    obtain ⟨hident, htitle⟩ := hstable c1 hc1 i hi c2 hc2 j hj hid
    rw [hxeq, hyeq]
    simp [hident, htitle]

open LinearPoller in
/-- C10 amended witness: an already-processed issue is not invoked again,
and two poll cycles over an issue with stable identifier and title create
its branch at most once — both the branch names and the issue ids of the
creation events are pairwise distinct. -/
theorem c10_amended_witness :
    "a" ∉ (pollIssues (fun _ => true) [⟨"a", "QX-1", "T"⟩]
      ⟨["a"], ⟨[], []⟩⟩).invoked ∧
    ((pollCycles (fun _ => true)
      [[⟨"a", "QX-1", "T"⟩], [⟨"a", "QX-1", "T"⟩]]
      ⟨[], ⟨[], []⟩⟩).2.map Prod.fst).Nodup :=
  ⟨c10_poller_at_most_once_amended.1 (fun _ => true) [⟨"a", "QX-1", "T"⟩]
      ⟨["a"], ⟨[], []⟩⟩ "a" (by decide),
   c10_poller_at_most_once_amended.2.2.2 (fun _ => true)
      [[⟨"a", "QX-1", "T"⟩], [⟨"a", "QX-1", "T"⟩]] ⟨[], ⟨[], []⟩⟩
      (by decide)⟩

end Theorems
